import Mathlib

/-!
# AeroFace face-recognition service: a shallow embedding

This file embeds the decision logic of the AeroFace lounge-access service:

* `face/embedding.py` — per-image embedding post-processing
  (`generate_embedding`) and the multi-shot aggregator
  (`generate_multi_embedding`);
* `api.py` — the `/verify` matcher (`verify_face`) with its
  margin-adaptive threshold, and the `/register` flow (`register_face`);
* `db/store_embedding.py` — the signature of `store_embedding` as a
  keyword-argument interface, and `fetch_all_embeddings`;
* `db/visit.py` — the `record_lounge_visit` check-in/check-out state
  machine over a list-of-rows model of the `lounge_visits` table.

Numpy float vectors are idealised as lists of real numbers; SQL
timestamps as rational numbers of seconds.  Database effects are made
explicit: the visit table is a list of rows threaded through the
transition function, and fallible connections/writes are boolean or
`Option`/`Except` parameters matching the `try/except` structure of the
Python code.
-/

namespace AeroFace

/-! ## Vector arithmetic (numpy idealised over `ℝ`)

`dot` is `np.dot` on 1-D arrays, `normSq` the sum of squares, `l2norm`
`np.linalg.norm` (the Euclidean norm), and `normalizeVec` the guarded
L2 normalisation pattern `if norm > 0: v = v / norm` used throughout
the Python sources. -/

/-- `np.dot` on 1-D arrays: the sum of pointwise products. -/
def dot (a b : List ℝ) : ℝ := (List.zipWith (· * ·) a b).sum

/-- Sum of squared components. -/
def normSq (v : List ℝ) : ℝ := (v.map (fun x => x * x)).sum

/-- `np.linalg.norm(v)`: the Euclidean (L2) norm. -/
noncomputable def l2norm (v : List ℝ) : ℝ := Real.sqrt (normSq v)

/-- The guarded normalisation `norm = np.linalg.norm(v); if norm > 0: v = v / norm`
(`face/embedding.py` lines 41-43 and 78-80, `api.py` lines 228-230). -/
noncomputable def normalizeVec (v : List ℝ) : List ℝ :=
  if 0 < l2norm v then v.map (fun x => x / l2norm v) else v

/-! ## `face/embedding.py` -/

/-- `generate_embedding` (`face/embedding.py` lines 20-50).  The DeepFace
call is external; its outcome is the input `raw` (`none` models an
exception or an empty result list).  A raw embedding of a dimension
other than 512 is rejected (`return None`), otherwise the embedding is
L2-normalised when its norm is positive. -/
noncomputable def generate_embedding (raw : Option (List ℝ)) : Option (List ℝ) :=
  match raw with
  | none => none
  | some emb => if emb.length ≠ 512 then none else some (normalizeVec emb)

/-- Pointwise sum of a non-empty family of vectors (`np.mean` numerator). -/
def sumVecs : List (List ℝ) → List ℝ
  | [] => []
  | v :: vs => vs.foldl (fun acc w => List.zipWith (· + ·) acc w) v

/-- `np.mean(embeddings, axis=0)`: pointwise arithmetic mean. -/
noncomputable def meanVec (l : List (List ℝ)) : List ℝ :=
  (sumVecs l).map (fun x => x / (l.length : ℝ))

/-- `generate_multi_embedding` (`face/embedding.py` lines 53-83): run
`generate_embedding` per image, keep the successes, return `None` when
none succeeded, otherwise the guarded-normalised pointwise mean of the
successes. -/
noncomputable def generate_multi_embedding (raws : List (Option (List ℝ))) : Option (List ℝ) :=
  let embeddings := raws.filterMap generate_embedding
  if embeddings.isEmpty then none
  else some (normalizeVec (meanVec embeddings))

/-! ## `api.py` — `verify_face` (the matcher)

The `/verify` endpoint decodes the probe image, produces a probe
embedding (`none` when `generate_embedding` failed), loads the gallery
(`fetch_all_embeddings`, a `user_id → vector` map, modelled as an
association list in iteration order) and applies the margin-adaptive
decision rule of lines 226-297.  The decision quantities are exposed as
named definitions mirroring the straight-line locals of the Python
code. -/

/-- The fields the decision branch of `verify_face` determines:
the flag, the matched user (`None` on the no-match response), the best
score (`confidence`), the dynamic threshold and the margin. -/
structure MatchDecision where
  matched : Bool
  user : Option String
  score : ℝ
  threshold : ℝ
  margin : ℝ

/-- The three outcomes of `verify_face`: the "No face detected in
image" response, the "No registered users in database" response, and a
scored decision. -/
inductive VerifyOutcome where
  | noFace
  | noUsers
  | decision (d : MatchDecision)

/-- Lines 226-234: for every `(uid, stored_emb)` pair, re-normalise the
stored vector and take the dot product with the probe. -/
noncomputable def similarities (probe : List ℝ) (gallery : List (String × List ℝ)) :
    List (String × ℝ) :=
  gallery.map (fun p => (p.1, dot probe (normalizeVec p.2)))

/-- The sort relation of `matches.sort(key=lambda x: x[1], reverse=True)`:
descending by score. -/
def scoreGE (a b : String × ℝ) : Prop := b.2 ≤ a.2

noncomputable instance : DecidableRel scoreGE := fun a b => Real.decidableLE b.2 a.2

instance : IsTotal (String × ℝ) scoreGE := ⟨fun a b => le_total b.2 a.2⟩

instance : IsTrans (String × ℝ) scoreGE := ⟨fun _ _ _ h h' => le_trans h' h⟩

/-- The sorted match list (stable descending sort, line 237). -/
noncomputable def rankedMatches (probe : List ℝ) (gallery : List (String × List ℝ)) :
    List (String × ℝ) :=
  (similarities probe gallery).insertionSort scoreGE

/-- `best_user, best_score = matches[0]` (line 239; the gallery is
non-empty on this path, so the default is never read). -/
noncomputable def bestPair (probe : List ℝ) (gallery : List (String × List ℝ)) : String × ℝ :=
  (rankedMatches probe gallery).headD ("", 0)

/-- `second_best_score = matches[1][1] if len(matches) > 1 else 0.0` (line 240). -/
noncomputable def secondBestScore (probe : List ℝ) (gallery : List (String × List ℝ)) : ℝ :=
  match (rankedMatches probe gallery).drop 1 with
  | [] => 0
  | p :: _ => p.2

/-- `margin = best_score - second_best_score` (line 250). -/
noncomputable def matchMargin (probe : List ℝ) (gallery : List (String × List ℝ)) : ℝ :=
  (bestPair probe gallery).2 - secondBestScore probe gallery

/-- `dynamic_threshold = max(0.45, 0.68 - (margin * 0.7))` (line 258). -/
noncomputable def dynamicThreshold (probe : List ℝ) (gallery : List (String × List ℝ)) : ℝ :=
  max (45 / 100) (68 / 100 - matchMargin probe gallery * (7 / 10))

/-- `verify_face` (`api.py` lines 197-297) from the probe embedding on:
`none` probe is the "No face detected" response; an empty gallery the
"No registered users" response; otherwise the decision with
`matched = (best_score >= dynamic_threshold and best_user)` — note the
Python truthiness test on `best_user`, which fails on the empty
string.  The matched response carries the best user, the no-match
response carries no user (`user_id = None`). -/
noncomputable def verify_face (probeOpt : Option (List ℝ))
    (gallery : List (String × List ℝ)) : VerifyOutcome :=
  match probeOpt with
  | none => .noFace
  | some probe =>
    if gallery.isEmpty then .noUsers
    else
      let best := bestPair probe gallery
      let margin := matchMargin probe gallery
      let threshold := dynamicThreshold probe gallery
      if dynamicThreshold probe gallery ≤ best.2 ∧ best.1 ≠ "" then
        .decision ⟨true, some best.1, best.2, threshold, margin⟩
      else
        .decision ⟨false, none, best.2, threshold, margin⟩

/-! ## `api.py` — `register_face` and the `store_embedding` call

`register_face` (lines 149-194) chooses the multi-shot or single-shot
path, rejects requests with no usable embedding, and then calls
`store_embedding(req.user_id, embedding, lounge_id=req.lounge_id)`.
Python binds keyword arguments against the callee's parameter list;
`store_embedding(user_id, embedding)` (`db/store_embedding.py` line 35)
has no `lounge_id` parameter, so the call raises `TypeError` before the
function body runs.  The embedding models the keyword binding step
explicitly. -/

/-- The parameter names of `store_embedding` (`db/store_embedding.py`
line 35: `def store_embedding(user_id, embedding)`). -/
def storeEmbeddingParams : List String := ["user_id", "embedding"]

/-- Python keyword binding: every keyword argument of a call must name a
parameter of the callee, otherwise the call raises `TypeError`. -/
def kwargsAccepted (params kwargs : List String) : Bool :=
  kwargs.all (params.contains ·)

/-- The keyword arguments `register_face` passes to `store_embedding`
(`api.py` line 184: `store_embedding(req.user_id, embedding, lounge_id=...)`). -/
def registerStoreKwargs : List String := ["lounge_id"]

/-- A `/register` request after image decoding: `image` is the decoded
single-shot field (`None` models an absent or empty `image_base64`),
`images` the decoded multi-shot list; each image is represented by the
raw DeepFace result it would produce. -/
structure RegRequest where
  image : Option (Option (List ℝ))
  images : Option (List (Option (List ℝ)))
  user_id : String
  lounge_id : Option String

/-- The body of the 200 response of `/register` (`api.py` lines 61-66,
188-194). -/
structure RegisterResponse where
  success : Bool
  message : String
  user_id : String
  embedding_size : Nat
  shots_used : Nat

/-- How a `/register` request terminates: an `HTTPException` with the
given status, an uncaught `TypeError` (surfaced by FastAPI as a 500
without ever reaching the endpoint's own code again), or the success
response. -/
inductive RegOutcome where
  | httpError (status : Nat)
  | typeError
  | ok (resp : RegisterResponse)

/-- Python truthiness of `req.images_base64` combined with the
`len(...) > 0` guard of line 161. -/
def multiShotRequested (req : RegRequest) : Bool :=
  match req.images with
  | none => false
  | some l => !l.isEmpty

/-- The embedding and `shots_used` the endpoint computes (lines 158-169):
the multi-shot path when `images_base64` is a non-empty list, otherwise
the single-shot path on `image_base64`. -/
noncomputable def regEmbedding (req : RegRequest) : Option (List ℝ) × Nat :=
  if multiShotRequested req then
    match req.images with
    | some imgs => (generate_multi_embedding imgs, imgs.length)
    | none => (none, 1)
  else
    match req.image with
    | some raw => (generate_embedding raw, 1)
    | none => (none, 1)

/-- `register_face` (`api.py` lines 149-194).  `storeOk` models whether
the database write inside `store_embedding` would succeed; it is never
consulted because the keyword binding of the call fails first. -/
noncomputable def register_face (storeOk : Bool) (req : RegRequest) : RegOutcome :=
  if req.image.isNone ∧ multiShotRequested req = false then .httpError 400
  else
    match regEmbedding req with
    | (none, _) => .httpError 422
    | (some emb, shots) =>
      if emb.length ≠ 512 then .httpError 500
      else if kwargsAccepted storeEmbeddingParams registerStoreKwargs = false then .typeError
      else if storeOk then
        .ok ⟨true, "Face registered successfully", req.user_id, emb.length, shots⟩
      else .httpError 500

/-! ## `db/store_embedding.py` — `fetch_all_embeddings`

`fetch_all_embeddings` (lines 88-134) returns `{}` when the connection
cannot be established or the query raises, and otherwise builds a
`user_id → vector` dict, skipping rows whose stored text does not parse
to floats (`ValueError`) or whose parsed vector is not 512-dimensional.
The stored cell is modelled, after the `strip("[]")`/`split(",")`
tokenisation, as the list of per-token `float(x)` outcomes (`none` =
`ValueError`); vectors are exact rationals here since no geometry is
involved. -/

/-- `[float(x) for x in vector_str.split(",")]`: all tokens must parse,
the first failure raises `ValueError` for the whole row. -/
def parseCell (toks : List (Option ℚ)) : Option (List ℚ) :=
  if toks.all Option.isSome then some (toks.filterMap id) else none

/-- Python dict assignment `users[user_id] = vector` on an
insertion-ordered dict: replace the value in place if the key exists,
else append. -/
def dictInsert (users : List (String × List ℚ)) (k : String) (v : List ℚ) :
    List (String × List ℚ) :=
  if users.any (fun p => p.1 == k) then
    users.map (fun p => if p.1 == k then (k, v) else p)
  else users ++ [(k, v)]

/-- The per-row body of the fetch loop (lines 107-121): a row whose
cell fails to parse is skipped (`continue`), a parsed vector is kept
only when it is 512-dimensional. -/
def fetchRowStep (users : List (String × List ℚ)) (row : String × List (Option ℚ)) :
    List (String × List ℚ) :=
  match parseCell row.2 with
  | none => users
  | some vec => if vec.length = 512 then dictInsert users row.1 vec else users

/-- `fetch_all_embeddings` (`db/store_embedding.py` lines 88-134).
`conn = none` models `get_connection()` returning `None`;
`some (.error ())` a `psycopg2.Error`/`Exception` raised by the query or
row processing (caught, returns `{}`); `some (.ok rows)` a successful
query returning `(user_id, tokenised cell)` rows. -/
def fetch_all_embeddings (conn : Option (Except Unit (List (String × List (Option ℚ))))) :
    List (String × List ℚ) :=
  match conn with
  | none => []
  | some (.error _) => []
  | some (.ok rows) => rows.foldl fetchRowStep []

/-! ## `db/visit.py` — `record_lounge_visit`

The `lounge_visits` table (`migrate_visits.py` lines 22-33: UUID primary
key, `in_time` defaulting to `NOW()`, nullable `out_time`) is modelled
as a list of rows plus a fresh-id counter; UUIDs become naturals and
timestamps rationals (seconds).  `record_lounge_visit` reads the most
recent row for the `(lounge_id, user_id)` pair (`ORDER BY in_time DESC
LIMIT 1`) and either does nothing (cooldown), closes that row, or
inserts a fresh open row.  The `writeOk` flag models whether the
`INSERT`/`UPDATE` raises `psycopg2.Error`, which the function catches:
it rolls back and returns the empty string. -/

/-- One row of `lounge_visits`. -/
structure Visit where
  id : Nat
  lounge : String
  user : String
  email : String
  in_time : ℚ
  out_time : Option ℚ
deriving DecidableEq

/-- The table plus the id sequence backing the primary-key default. -/
structure VisitStore where
  visits : List Visit
  nextId : Nat
deriving DecidableEq

/-- The rows of the given `(lounge_id, user_id)` pair, in table order. -/
def pairVisits (st : VisitStore) (l u : String) : List Visit :=
  st.visits.filter (fun r => r.lounge == l && r.user == u)

/-- `ORDER BY in_time DESC LIMIT 1` over a row list: a row of maximal
`in_time` (the earliest such row when several tie). -/
def maxByInTime : List Visit → Option Visit
  | [] => none
  | r :: rs =>
    match maxByInTime rs with
    | none => some r
    | some b => if b.in_time ≤ r.in_time then some r else some b

/-- The most recent visit row for the pair (the `SELECT` of lines 22-28). -/
def latestVisit (st : VisitStore) (l u : String) : Option Visit :=
  maxByInTime (pairVisits st l u)

/-- The number of open rows (`out_time IS NULL`) for the pair. -/
def openCount (st : VisitStore) (l u : String) : Nat :=
  ((pairVisits st l u).filter (fun r => r.out_time == none)).length

/-- Python `int()`: truncation toward zero. -/
def pyInt (q : ℚ) : ℤ := if 0 ≤ q then ⌊q⌋ else ⌈q⌉

/-- The cooldown message of line 38:
`f"Checked in recently ({int(60 - seconds_since_in)}s remaining to checkout)"`. -/
def cooldownMsg (n : ℤ) : String :=
  "Checked in recently (" ++ toString n ++ "s remaining to checkout)"

/-- The `INSERT` of lines 49-52: a fresh row, `in_time` filled by the
column default `NOW()`, `out_time` NULL. -/
def insertVisit (st : VisitStore) (l u e : String) (now : ℚ) : VisitStore :=
  ⟨st.visits ++ [⟨st.nextId, l, u, e, now, none⟩], st.nextId + 1⟩

/-- The `UPDATE ... SET out_time = NOW() WHERE id = %s` of lines 40-44. -/
def closeVisit (st : VisitStore) (vid : Nat) (now : ℚ) : VisitStore :=
  ⟨st.visits.map (fun r => if r.id = vid then { r with out_time := some now } else r),
   st.nextId⟩

/-- `record_lounge_visit` (`db/visit.py` lines 4-63).  Returns the
status message and the table after the call.  `writeOk = false` models
the `INSERT`/`UPDATE` raising `psycopg2.Error`: the handler of lines
56-59 rolls the transaction back and returns `""`.  The cooldown branch
performs no write, so it is unaffected by `writeOk`. -/
def record_lounge_visit (writeOk : Bool) (st : VisitStore) (l u e : String) (now : ℚ) :
    String × VisitStore :=
  if l = "" then ("No lounge ID provided", st)
  else
    match latestVisit st l u with
    | some r =>
      if r.out_time = none then
        if now - r.in_time < 60 then
          (cooldownMsg (pyInt (60 - (now - r.in_time))), st)
        else if writeOk then ("Checked out", closeVisit st r.id now)
        else ("", st)
      else if writeOk then ("Checked in", insertVisit st l u e now)
      else ("", st)
    | none =>
      if writeOk then ("Checked in", insertVisit st l u e now)
      else ("", st)

/-- One accepted match handed to the visit recorder, with the clock
value `NOW()` evaluates to during that call. -/
structure Call where
  writeOk : Bool
  lounge : String
  user : String
  email : String
  now : ℚ
deriving DecidableEq

/-- A sequence of `record_lounge_visit` calls, threaded through the store. -/
def runCalls (st : VisitStore) : List Call → VisitStore
  | [] => st
  | c :: cs => runCalls (record_lounge_visit c.writeOk st c.lounge c.user c.email c.now).2 cs

/-- Every row was inserted strictly before time `t`. -/
def timeBound (st : VisitStore) (t : ℚ) : Prop :=
  ∀ r ∈ st.visits, r.in_time < t

/-- The calls happen in chronological order: each call's clock is
strictly later than the `in_time` of every row present when it runs
(true of `NOW()` under the table's insertion discipline). -/
def chrono (st : VisitStore) : List Call → Prop
  | [] => True
  | c :: cs =>
    timeBound st c.now ∧
    chrono (record_lounge_visit c.writeOk st c.lounge c.user c.email c.now).2 cs

/-- Primary-key discipline: row ids are distinct and below the sequence
counter. -/
def idsOk (st : VisitStore) : Prop :=
  (st.visits.map Visit.id).Nodup ∧ ∀ r ∈ st.visits, r.id < st.nextId

/-- Every open row is strictly the most recent row of its pair: any
other row of the same pair has a strictly smaller `in_time`. -/
def openIsLatest (st : VisitStore) : Prop :=
  ∀ r ∈ st.visits, r.out_time = none →
    ∀ r' ∈ st.visits, r'.lounge = r.lounge → r'.user = r.user → r' ≠ r →
      r'.in_time < r.in_time

/-- The store invariant `record_lounge_visit` maintains. -/
def StoreInv (st : VisitStore) : Prop := idsOk st ∧ openIsLatest st

instance (st : VisitStore) (t : ℚ) : Decidable (timeBound st t) := by
  unfold timeBound; infer_instance

instance (st : VisitStore) : Decidable (idsOk st) := by
  unfold idsOk; infer_instance

instance (st : VisitStore) : Decidable (openIsLatest st) := by
  unfold openIsLatest; infer_instance

instance (st : VisitStore) : Decidable (StoreInv st) := by
  unfold StoreInv; infer_instance

instance (st : VisitStore) (cs : List Call) : Decidable (chrono st cs) := by
  induction cs generalizing st with
  | nil => exact .isTrue trivial
  | cons c cs ih => unfold chrono; exact @instDecidableAnd _ _ _ (ih _)

/-! ### Concrete stores and calls used in the claim analyses -/

/-- A store with one *stale* open row (`in_time = 0`) and a more recent
closed row: it satisfies "at most one open row per pair" but not the
open-is-latest invariant. -/
def staleStore : VisitStore :=
  ⟨[⟨0, "L", "U", "e", 0, none⟩, ⟨1, "L", "U", "e", 100, some 150⟩], 2⟩

/-- A store with a single open row for `("L", "U")`, checked in at time 0. -/
def openStore : VisitStore := ⟨[⟨0, "L", "U", "e", 0, none⟩], 1⟩

/-- A store with a single *closed* row for `("L", "U")`. -/
def closedStore : VisitStore := ⟨[⟨0, "L", "U", "e", 0, some 70⟩], 1⟩

/-- The empty visit table. -/
def emptyStore : VisitStore := ⟨[], 0⟩

/-- Three successive accepted matches for the same pair: check-in at
`t = 10`, a repeat during the cooldown at `t = 30`, check-out at `t = 100`. -/
def demoCalls : List Call :=
  [⟨true, "L", "U", "e", 10⟩, ⟨true, "L", "U", "e", 30⟩, ⟨true, "L", "U", "e", 100⟩]

/-- A 512-dimensional unit vector: `(1, 0, ..., 0)`. -/
noncomputable def eUnit : List ℝ := 1 :: List.replicate 511 0

/-- Its antipode `(-1, 0, ..., 0)`, also a unit vector. -/
noncomputable def eUnitNeg : List ℝ := -1 :: List.replicate 511 0

/-- The 512-dimensional zero vector. -/
noncomputable def zero512 : List ℝ := List.replicate 512 0

/-- A multi-shot registration request with five submitted images of
which the embedder succeeds on three. -/
noncomputable def req8 : RegRequest :=
  ⟨none, some [some eUnit, some eUnit, some eUnit, none, none], "u", some "L"⟩

/-- A multi-shot registration request with one good image. -/
noncomputable def req9 : RegRequest := ⟨none, some [some eUnit], "u", some "L"⟩

/-- A fetch result with one good row, one row whose cell fails to
parse, and one row of the wrong dimension. -/
def fetchRows : List (String × List (Option ℚ)) :=
  [("u", List.replicate 512 (some 1)),
   ("bad", [some 1, none, some 2]),
   ("short", [some 1, some 2, some 3])]

/-! ## Lemmas about the visit store -/

theorem maxByInTime_eq_none {l : List Visit} : maxByInTime l = none ↔ l = [] := by
  cases l with
  | nil => simp [maxByInTime]
  | cons r rs =>
    simp only [maxByInTime]
    cases h : maxByInTime rs with
    | none => simp
    | some b => by_cases hb : b.in_time ≤ r.in_time <;> simp [hb]

theorem maxByInTime_mem {l : List Visit} {r : Visit} (h : maxByInTime l = some r) : r ∈ l := by
  induction l with
  | nil => simp [maxByInTime] at h
  | cons a as ih =>
    rw [maxByInTime] at h
    cases hm : maxByInTime as with
    | none => rw [hm] at h; simp at h; simp [h]
    | some b =>
      rw [hm] at h
      dsimp only at h
      by_cases hb : b.in_time ≤ a.in_time
      · rw [if_pos hb] at h
        simp at h
        simp [h]
      · rw [if_neg hb] at h
        simp at h
        subst h
        exact List.mem_cons_of_mem _ (ih hm)

theorem maxByInTime_ge {l : List Visit} {r : Visit} (h : maxByInTime l = some r) :
    ∀ x ∈ l, x.in_time ≤ r.in_time := by
  induction l generalizing r with
  | nil => simp
  | cons a as ih =>
    rw [maxByInTime] at h
    intro x hx
    rcases List.mem_cons.mp hx with hxa | hxs
    · subst hxa
      cases hm : maxByInTime as with
      | none => rw [hm] at h; simp at h; simp [h]
      | some b =>
        rw [hm] at h
        dsimp only at h
        by_cases hb : b.in_time ≤ x.in_time
        · rw [if_pos hb] at h; simp at h; simp [h]
        · rw [if_neg hb] at h; simp at h; subst h; exact le_of_not_le hb
    · cases hm : maxByInTime as with
      | none => rw [maxByInTime_eq_none.mp hm] at hxs; simp at hxs
      | some b =>
        rw [hm] at h
        dsimp only at h
        have hxb := ih hm x hxs
        by_cases hb : b.in_time ≤ a.in_time
        · rw [if_pos hb] at h; simp at h; rw [← h]; exact le_trans hxb hb
        · rw [if_neg hb] at h; simp at h; rw [← h]; exact hxb

theorem maxByInTime_of_strict {l : List Visit} {r : Visit} (hmem : r ∈ l)
    (hmax : ∀ x ∈ l, x ≠ r → x.in_time < r.in_time) : maxByInTime l = some r := by
  induction l with
  | nil => simp at hmem
  | cons a as ih =>
    rw [maxByInTime]
    rcases List.mem_cons.mp hmem with hra | hrs
    · subst hra
      cases hm : maxByInTime as with
      | none => rfl
      | some b =>
        dsimp only
        have hb : b.in_time ≤ r.in_time := by
          by_cases hbr : b = r
          · rw [hbr]
          · exact le_of_lt (hmax b (List.mem_cons_of_mem _ (maxByInTime_mem hm)) hbr)
        rw [if_pos hb]
    · have hm := ih hrs (fun x hx hxr => hmax x (List.mem_cons_of_mem _ hx) hxr)
      rw [hm]
      dsimp only
      by_cases har : a = r
      · subst har
        rw [if_pos le_rfl]
      · rw [if_neg (not_le.mpr (hmax a (List.mem_cons_self a as) har))]

theorem mem_pairVisits {st : VisitStore} {l u : String} {r : Visit} :
    r ∈ pairVisits st l u ↔ r ∈ st.visits ∧ r.lounge = l ∧ r.user = u := by
  simp [pairVisits, List.mem_filter]

theorem latestVisit_mem {st : VisitStore} {l u : String} {r : Visit}
    (h : latestVisit st l u = some r) : r ∈ st.visits ∧ r.lounge = l ∧ r.user = u :=
  mem_pairVisits.mp (maxByInTime_mem h)

/-- Under the open-is-strictly-latest invariant, an open row of a pair is
what the `SELECT ... ORDER BY in_time DESC LIMIT 1` returns. -/
theorem latestVisit_of_open {st : VisitStore} {l u : String} {r : Visit}
    (hinv : openIsLatest st) (hr : r ∈ st.visits) (hl : r.lounge = l) (hu : r.user = u)
    (ho : r.out_time = none) : latestVisit st l u = some r := by
  refine maxByInTime_of_strict (mem_pairVisits.mpr ⟨hr, hl, hu⟩) ?_
  intro x hx hxr
  obtain ⟨hxv, hxl, hxu⟩ := mem_pairVisits.mp hx
  exact hinv r hr ho x hxv (by rw [hxl, hl]) (by rw [hxu, hu]) hxr

/-- With distinct primary keys, the open-is-strictly-latest invariant
bounds the number of open rows of any pair by one. -/
theorem openCount_le_one {st : VisitStore} (hids : (st.visits.map Visit.id).Nodup)
    (hinv : openIsLatest st) (l u : String) : openCount st l u ≤ 1 := by
  have hnd : ((pairVisits st l u).filter (fun r => r.out_time == none)).Nodup :=
    ((hids.of_map Visit.id).filter _).filter _
  by_contra hc
  push_neg at hc
  unfold openCount at hc
  set f := (pairVisits st l u).filter (fun r => r.out_time == none) with hf
  match hfe : f with
  | [] => simp at hc
  | [a] => simp at hc
  | a :: b :: t =>
    have hab : a ≠ b := by
      intro h
      exact (List.nodup_cons.mp hnd).1 (h ▸ List.mem_cons_self b t)
    have ham : a ∈ f := by rw [hfe]; exact List.mem_cons_self _ _
    have hbm : b ∈ f := by rw [hfe]; exact List.mem_cons_of_mem _ (List.mem_cons_self _ _)
    have ha := List.mem_filter.mp ham
    have hb := List.mem_filter.mp hbm
    obtain ⟨hav, hal, hau⟩ := mem_pairVisits.mp ha.1
    obtain ⟨hbv, hbl, hbu⟩ := mem_pairVisits.mp hb.1
    have hao : a.out_time = none := by simpa using ha.2
    have hbo : b.out_time = none := by simpa using hb.2
    have h1 := hinv a hav hao b hbv (by rw [hbl, hal]) (by rw [hbu, hau]) (Ne.symm hab)
    have h2 := hinv b hbv hbo a hav (by rw [hal, hbl]) (by rw [hau, hbu]) hab
    exact absurd (h1.trans h2) (lt_irrefl _)

/-- Closing any row preserves the store invariant: ids and `in_time`s
are untouched and the set of open rows only shrinks. -/
theorem closeVisit_inv {st : VisitStore} (vid : Nat) (now : ℚ) (hInv : StoreInv st) :
    StoreInv (closeVisit st vid now) := by
  obtain ⟨⟨hnd, hbound⟩, hopen⟩ := hInv
  have hid : ∀ y : Visit, (if y.id = vid then { y with out_time := some now } else y).id = y.id := by
    intro y; split_ifs <;> rfl
  have hlou : ∀ y : Visit,
      (if y.id = vid then { y with out_time := some now } else y).lounge = y.lounge := by
    intro y; split_ifs <;> rfl
  have husr : ∀ y : Visit,
      (if y.id = vid then { y with out_time := some now } else y).user = y.user := by
    intro y; split_ifs <;> rfl
  have htime : ∀ y : Visit,
      (if y.id = vid then { y with out_time := some now } else y).in_time = y.in_time := by
    intro y; split_ifs <;> rfl
  have hopenf : ∀ y : Visit,
      (if y.id = vid then { y with out_time := some now } else y).out_time = none →
      (if y.id = vid then { y with out_time := some now } else y) = y := by
    intro y hy
    by_cases h : y.id = vid
    · rw [if_pos h] at hy
      simp at hy
    · rw [if_neg h]
  refine ⟨⟨?_, ?_⟩, ?_⟩
  · have heq : (closeVisit st vid now).visits.map Visit.id = st.visits.map Visit.id := by
      simp only [closeVisit, List.map_map]
      exact List.map_congr_left (fun y _ => hid y)
    rw [heq]; exact hnd
  · intro r hr
    simp only [closeVisit] at hr ⊢
    obtain ⟨y, hy, hyr⟩ := List.mem_map.mp hr
    rw [← hyr, hid y]
    exact hbound y hy
  · intro x hx hxo x' hx' hl hu hne
    simp only [closeVisit] at hx hx'
    obtain ⟨y, hy, hyx⟩ := List.mem_map.mp hx
    obtain ⟨y', hy', hyx'⟩ := List.mem_map.mp hx'
    have hxy : x = y := by
      rw [← hyx]
      exact hopenf y (by rw [hyx]; exact hxo)
    have hyy : y' ≠ y := by
      intro h
      apply hne
      rw [← hyx', h]
      exact hyx
    have h1 : y'.lounge = y.lounge := by
      have := hlou y'
      rw [hyx'] at this
      rw [← this, hl, hxy]
    have h2 : y'.user = y.user := by
      have := husr y'
      rw [hyx'] at this
      rw [← this, hu, hxy]
    have hlt := hopen y hy (hxy ▸ hxo) y' hy' h1 h2 hyy
    have h3 : x'.in_time = y'.in_time := by
      have := htime y'
      rw [hyx'] at this
      exact this
    rw [h3, hxy]
    exact hlt

/-- Inserting a fresh open row preserves the store invariant, provided
the clock is ahead of every stored `in_time` and the pair has no open
row yet. -/
theorem insertVisit_inv {st : VisitStore} {l u : String} (e : String) {now : ℚ}
    (hInv : StoreInv st) (ht : timeBound st now)
    (hno : ∀ r ∈ st.visits, r.lounge = l → r.user = u → r.out_time ≠ none) :
    StoreInv (insertVisit st l u e now) := by
  obtain ⟨⟨hnd, hbound⟩, hopen⟩ := hInv
  refine ⟨⟨?_, ?_⟩, ?_⟩
  · simp only [insertVisit, List.map_append, List.map_cons, List.map_nil]
    rw [List.nodup_append]
    refine ⟨hnd, List.nodup_singleton _, ?_⟩
    intro a ha hb
    simp at hb
    obtain ⟨y, hy, hyv⟩ := List.mem_map.mp ha
    rw [hb] at hyv
    exact absurd (hyv ▸ hbound y hy) (lt_irrefl _)
  · intro r hr
    simp only [insertVisit] at hr ⊢
    rcases List.mem_append.mp hr with h | h
    · exact Nat.lt_succ_of_lt (hbound r h)
    · simp at h
      rw [h]
      exact Nat.lt_succ_self _
  · intro x hx hxo x' hx' hl hu hne
    simp only [insertVisit] at hx hx'
    rcases List.mem_append.mp hx with hxold | hxnew
    · rcases List.mem_append.mp hx' with hold | hnew
      · exact hopen x hxold hxo x' hold hl hu hne
      · exfalso
        simp at hnew
        rw [hnew] at hl hu
        exact hno x hxold hl.symm hu.symm hxo
    · simp at hxnew
      rcases List.mem_append.mp hx' with hold | hnew
      · rw [hxnew]
        exact ht x' hold
      · exfalso
        simp at hnew
        rw [hxnew] at hne
        rw [hnew] at hne
        exact hne rfl

/-- One `record_lounge_visit` call preserves the store invariant when
its clock is ahead of every stored `in_time`. -/
theorem record_preservesInv {st : VisitStore} (w : Bool) (l u e : String) (now : ℚ)
    (hInv : StoreInv st) (ht : timeBound st now) :
    StoreInv (record_lounge_visit w st l u e now).2 := by
  unfold record_lounge_visit
  by_cases hl : l = ""
  · simpa [hl] using hInv
  rw [if_neg hl]
  cases hlv : latestVisit st l u with
  | none =>
    dsimp only
    have hpe : pairVisits st l u = [] := maxByInTime_eq_none.mp hlv
    have hno : ∀ r ∈ st.visits, r.lounge = l → r.user = u → r.out_time ≠ none := by
      intro r hr hrl hru _
      have : r ∈ pairVisits st l u := mem_pairVisits.mpr ⟨hr, hrl, hru⟩
      rw [hpe] at this
      simp at this
    cases w with
    | true => simpa using insertVisit_inv e hInv ht hno
    | false => simpa using hInv
  | some r =>
    dsimp only
    by_cases hro : r.out_time = none
    · rw [if_pos hro]
      by_cases hcd : now - r.in_time < 60
      · simpa [hcd] using hInv
      · rw [if_neg hcd]
        cases w with
        | true => simpa using closeVisit_inv r.id now hInv
        | false => simpa using hInv
    · rw [if_neg hro]
      have hno : ∀ x ∈ st.visits, x.lounge = l → x.user = u → x.out_time ≠ none := by
        intro x hxv hxl hxu hxo
        have := latestVisit_of_open hInv.2 hxv hxl hxu hxo
        rw [hlv] at this
        have hxr : r = x := by injection this
        exact hro (by rw [hxr]; exact hxo)
      cases w with
      | true => simpa using insertVisit_inv e hInv ht hno
      | false => simpa using hInv

/-- Sequences of chronological calls preserve the store invariant. -/
theorem runCalls_inv {st : VisitStore} {cs : List Call}
    (hInv : StoreInv st) (hch : chrono st cs) : StoreInv (runCalls st cs) := by
  induction cs generalizing st with
  | nil => simpa [runCalls] using hInv
  | cons c cs ih =>
    rw [runCalls]
    obtain ⟨ht, hch'⟩ := hch
    exact ih (record_preservesInv c.writeOk c.lounge c.user c.email c.now hInv ht) hch'

/-! ### Branch evaluation lemmas for `record_lounge_visit` -/

theorem record_eval_cooldown {st : VisitStore} {l u : String} {now : ℚ} {r : Visit}
    (w : Bool) (e : String) (hl : l ≠ "") (hlv : latestVisit st l u = some r)
    (ho : r.out_time = none) (hcd : now - r.in_time < 60) :
    record_lounge_visit w st l u e now =
      (cooldownMsg (pyInt (60 - (now - r.in_time))), st) := by
  rw [record_lounge_visit, if_neg hl, hlv]
  dsimp only
  rw [if_pos ho, if_pos hcd]

theorem record_eval_close {st : VisitStore} {l u : String} {now : ℚ} {r : Visit}
    (e : String) (hl : l ≠ "") (hlv : latestVisit st l u = some r)
    (ho : r.out_time = none) (hcd : ¬(now - r.in_time < 60)) :
    record_lounge_visit true st l u e now = ("Checked out", closeVisit st r.id now) := by
  rw [record_lounge_visit, if_neg hl, hlv]
  dsimp only
  rw [if_pos ho, if_neg hcd]
  rfl

theorem record_eval_checkin {st : VisitStore} {l u : String} {now : ℚ}
    (e : String) (hl : l ≠ "")
    (hcase : latestVisit st l u = none ∨
      ∃ r, latestVisit st l u = some r ∧ r.out_time ≠ none) :
    record_lounge_visit true st l u e now = ("Checked in", insertVisit st l u e now) := by
  rw [record_lounge_visit, if_neg hl]
  rcases hcase with hnone | ⟨r, hlv, hro⟩
  · rw [hnone]
    rfl
  · rw [hlv]
    dsimp only
    rw [if_neg hro]
    rfl

/-! ## Claim C2 — at-most-one-open-record invariant -/

/-- C2, counterexample.  "Starting from a store with at most one open
record for the pair, any sequence of `record_lounge_visit` calls leaves
at most one open record" is false as stated: `staleStore` has exactly
one open record for `("L", "U")` (an old open row, followed in time by
a closed row), yet a single accepted match at `t = 200` reads the
*most recent* row, finds it closed, and inserts a second open row. -/
theorem C2_counterexample :
    openCount staleStore "L" "U" = 1 ∧
    openCount (record_lounge_visit true staleStore "L" "U" "e" 200).2 "L" "U" = 2 := by
  decide

/-- C2, amended.  `record_lounge_visit` preserves "at most one open
record per pair" under the invariant the table itself maintains — every
open row is strictly the most recent row of its pair and primary keys
are distinct (`StoreInv`) — and under chronological clocks (each call's
`NOW()` is later than every stored `in_time`): any sequential sequence
of calls then leaves at most one open record for every pair. -/
theorem C2_invariant (st : VisitStore) (cs : List Call)
    (hInv : StoreInv st) (hch : chrono st cs) (l u : String) :
    openCount (runCalls st cs) l u ≤ 1 :=
  openCount_le_one (runCalls_inv hInv hch).1.1 (runCalls_inv hInv hch).2 l u

/-- C2, witness: the empty store satisfies the invariant, the
check-in / cooldown / check-out sequence `demoCalls` is chronological,
and after running it the pair has at most one open record. -/
theorem C2_witness :
    StoreInv emptyStore ∧ chrono emptyStore demoCalls ∧
    openCount (runCalls emptyStore demoCalls) "L" "U" ≤ 1 := by
  have e1 : record_lounge_visit true emptyStore "L" "U" "e" 10 =
      ("Checked in", ⟨[⟨0, "L", "U", "e", 10, none⟩], 1⟩) := by
    exact @record_eval_checkin emptyStore "L" "U" 10 "e" (by decide) (Or.inl (by decide))
  have e2 : record_lounge_visit true ⟨[⟨0, "L", "U", "e", 10, none⟩], 1⟩ "L" "U" "e" 30 =
      (cooldownMsg (pyInt (60 - ((30 : ℚ) - 10))), ⟨[⟨0, "L", "U", "e", 10, none⟩], 1⟩) := by
    exact @record_eval_cooldown ⟨[⟨0, "L", "U", "e", 10, none⟩], 1⟩ "L" "U" 30
      ⟨0, "L", "U", "e", 10, none⟩ true "e" (by decide) (by decide) rfl (by norm_num)
  have e3 : record_lounge_visit true ⟨[⟨0, "L", "U", "e", 10, none⟩], 1⟩ "L" "U" "e" 100 =
      ("Checked out",
        closeVisit ⟨[⟨0, "L", "U", "e", 10, none⟩], 1⟩ 0 100) := by
    exact @record_eval_close ⟨[⟨0, "L", "U", "e", 10, none⟩], 1⟩ "L" "U" 100
      ⟨0, "L", "U", "e", 10, none⟩ "e" (by decide) (by decide) rfl (by norm_num)
  have hch : chrono emptyStore demoCalls := by
    simp only [demoCalls, chrono, e1, e2, e3]
    norm_num [timeBound, emptyStore, closeVisit]
  exact ⟨by decide, hch, C2_invariant emptyStore demoCalls (by decide) hch "L" "U"⟩

/-! ## Claim C3 — cooldown behaviour -/

/-- C3, counterexample.  The claim says the cooldown message reports
`N = ceil(60 − elapsed)` seconds remaining.  The code computes
`int(60 - seconds_since_in)`, which truncates: at `elapsed = 59/2`
seconds the code emits `30` where the claim requires
`ceil(60 − 59/2) = 31` (and the literal message text also differs from
the claim's "checked in recently, N seconds remaining"). -/
theorem C3_counterexample :
    record_lounge_visit true openStore "L" "U" "e" (59 / 2) = (cooldownMsg 30, openStore) ∧
    ⌈(60 : ℚ) - (59 / 2 - 0)⌉ = 31 ∧ cooldownMsg 30 ≠ cooldownMsg 31 := by
  refine ⟨?_, ?_, by decide⟩
  · have h1 : latestVisit openStore "L" "U" = some ⟨0, "L", "U", "e", 0, none⟩ := by decide
    rw [record_lounge_visit]
    simp only [h1, if_neg (show ¬("L" : String) = "" by decide)]
    norm_num [pyInt]
  · rw [show (60 : ℚ) - (59 / 2 - 0) = 61 / 2 by norm_num, Int.ceil_eq_iff]
    constructor <;> norm_num

/-- C3, amended.  For every accepted match on a pair whose most recent
record is open with `elapsed = now − in_time < 60` seconds,
`record_lounge_visit` performs no transition (the store is returned
unchanged) and emits
`"Checked in recently (Ns remaining to checkout)"` where
`N = int(60 − elapsed)` (Python truncation, i.e. the floor of the
positive quantity `60 − elapsed`), not the ceiling. -/
theorem C3_cooldown (w : Bool) (st : VisitStore) (l u e : String) (now : ℚ) (r : Visit)
    (hl : l ≠ "") (hlv : latestVisit st l u = some r) (ho : r.out_time = none)
    (hcd : now - r.in_time < 60) :
    record_lounge_visit w st l u e now =
      (cooldownMsg (pyInt (60 - (now - r.in_time))), st) := by
  rw [record_lounge_visit, if_neg hl, hlv]
  dsimp only
  rw [if_pos ho, if_pos hcd]

/-- C3, witness: a repeat accept 30 seconds into an open visit leaves
the store unchanged and reports 30 seconds remaining. -/
theorem C3_witness :
    record_lounge_visit true openStore "L" "U" "e" 30 =
      (cooldownMsg (pyInt (60 - ((30 : ℚ) - 0))), openStore) ∧
    pyInt (60 - ((30 : ℚ) - 0)) = 30 :=
  ⟨by
    have h := C3_cooldown true openStore "L" "U" "e" 30 ⟨0, "L", "U", "e", 0, none⟩
      (by decide) (by decide) (by decide) (by norm_num)
    simpa using h,
   by norm_num [pyInt]⟩

/-! ## Claim C4 — frame conditions of the visit transition -/

/-- Closing the row `r` (unique by primary key) rewrites exactly that
row in place and touches nothing else. -/
theorem closeVisit_decomp {st : VisitStore} {r : Visit}
    (hnd : (st.visits.map Visit.id).Nodup) (hr : r ∈ st.visits) (now : ℚ) :
    ∃ pre post, st.visits = pre ++ r :: post ∧
      (closeVisit st r.id now).visits = pre ++ { r with out_time := some now } :: post := by
  obtain ⟨pre, post, hsplit⟩ := List.append_of_mem hr
  refine ⟨pre, post, hsplit, ?_⟩
  have hnd' := hnd
  rw [hsplit, List.map_append, List.map_cons] at hnd'
  have hdisj := List.nodup_append.mp hnd'
  have hpre : ∀ y ∈ pre, y.id ≠ r.id := by
    intro y hy hid
    exact hdisj.2.2 (List.mem_map_of_mem Visit.id hy)
      (by rw [hid]; exact List.mem_cons_self _ _)
  have hpost : ∀ y ∈ post, y.id ≠ r.id := by
    intro y hy hid
    have := (List.nodup_cons.mp hdisj.2.1).1
    exact this (by rw [← hid]; exact List.mem_map_of_mem Visit.id hy)
  simp only [closeVisit, hsplit, List.map_append, List.map_cons, if_pos rfl]
  congr 1
  · exact (List.map_congr_left (fun y hy => if_neg (hpre y hy))).trans (List.map_id _)
  · congr 1
    exact (List.map_congr_left (fun y hy => if_neg (hpost y hy))).trans (List.map_id _)

/-- C4.  Frame conditions of `record_lounge_visit` on an accepted match
(`lounge_id` non-empty, primary keys distinct): (a) during the cooldown
the store is returned exactly as it was — zero inserts, zero
mutations; (b) at `elapsed ≥ 60` the one open row read by the `SELECT`
gets `out_time = now` set in place and nothing else changes; (c) when
the most recent row is closed, or no row exists, exactly one new row
`(lounge, user, email, in_time = now, out_time = NULL)` is appended and
no existing row is modified. -/
theorem C4_frame (st : VisitStore) (l u e : String) (now : ℚ)
    (hl : l ≠ "") (hnd : (st.visits.map Visit.id).Nodup) :
    (∀ (w : Bool) (r : Visit), latestVisit st l u = some r → r.out_time = none →
       now - r.in_time < 60 → (record_lounge_visit w st l u e now).2 = st) ∧
    (∀ r : Visit, latestVisit st l u = some r → r.out_time = none →
       ¬(now - r.in_time < 60) →
       ∃ pre post, st.visits = pre ++ r :: post ∧
         (record_lounge_visit true st l u e now).2 =
           ⟨pre ++ { r with out_time := some now } :: post, st.nextId⟩) ∧
    ((latestVisit st l u = none ∨
        ∃ r : Visit, latestVisit st l u = some r ∧ r.out_time ≠ none) →
       (record_lounge_visit true st l u e now).2 =
         ⟨st.visits ++ [⟨st.nextId, l, u, e, now, none⟩], st.nextId + 1⟩) := by
  refine ⟨?_, ?_, ?_⟩
  · intro w r hlv ho hcd
    rw [record_lounge_visit, if_neg hl, hlv]
    dsimp only
    rw [if_pos ho, if_pos hcd]
  · intro r hlv ho hcd
    obtain ⟨pre, post, hsplit, hclose⟩ :=
      closeVisit_decomp hnd ((latestVisit_mem hlv).1) now
    refine ⟨pre, post, hsplit, ?_⟩
    rw [record_lounge_visit, if_neg hl, hlv]
    dsimp only
    rw [if_pos ho, if_neg hcd]
    show closeVisit st r.id now = _
    rw [← hclose]
    rfl
  · intro hcase
    rcases hcase with hnone | ⟨r, hlv, hro⟩
    · rw [record_lounge_visit, if_neg hl, hnone]
      dsimp only
      rfl
    · rw [record_lounge_visit, if_neg hl, hlv]
      dsimp only
      rw [if_neg hro]
      rfl

/-- C4, witness: concrete instances of all three frame conditions —
a cooldown repeat at `t = 30` leaves `openStore` intact, a check-out at
`t = 100` closes exactly the open row of `openStore`, and a check-in on
`closedStore` appends exactly one fresh open row. -/
theorem C4_witness :
    (record_lounge_visit true openStore "L" "U" "e" 30).2 = openStore ∧
    (record_lounge_visit true openStore "L" "U" "e" 100).2 =
      ⟨[⟨0, "L", "U", "e", 0, some 100⟩], 1⟩ ∧
    (record_lounge_visit true closedStore "L" "U" "e" 100).2 =
      ⟨[⟨0, "L", "U", "e", 0, some 70⟩, ⟨1, "L", "U", "e", 100, none⟩], 2⟩ := by
  have h := C4_frame openStore "L" "U" "e" 30 (by decide) (by decide)
  have h100 := C4_frame openStore "L" "U" "e" 100 (by decide) (by decide)
  have hc := C4_frame closedStore "L" "U" "e" 100 (by decide) (by decide)
  refine ⟨h.1 true ⟨0, "L", "U", "e", 0, none⟩ (by decide) (by decide) (by norm_num), ?_, ?_⟩
  · obtain ⟨pre, post, hsplit, hres⟩ :=
      h100.2.1 ⟨0, "L", "U", "e", 0, none⟩ (by decide) (by decide) (by norm_num)
    cases pre with
    | nil =>
      have hpost : post = [] := by
        have hl := congrArg List.length hsplit
        simpa [openStore] using hl
      rw [hpost] at hres
      exact hres
    | cons a t =>
      have hl := congrArg List.length hsplit
      simp [openStore] at hl
  · exact hc.2.2 (Or.inr ⟨⟨0, "L", "U", "e", 0, some 70⟩, by decide, by decide⟩)

/-! ## Claim C7 — storage failure during the visit write -/

/-- C7, counterexample.  The claim says a failing storage write is
surfaced as a `StorageError`, "not a silently downgraded empty result".
The code catches `psycopg2.Error`, rolls back and returns `""`: on an
empty table with a failing `INSERT`, the caller receives the empty
string — indistinguishable from the no-connection path — and no
exception. -/
theorem C7_counterexample :
    record_lounge_visit false emptyStore "L" "U" "" 5 = ("", emptyStore) := by
  decide

/-- C7, amended.  When the storage write of a visit transition fails,
`record_lounge_visit` returns the empty-string status (a silent
downgrade, not a `StorageError` the caller can distinguish), and the
transition has not happened: the rollback leaves the visit store
unchanged (no partial state).  The cooldown case performs no write and
is therefore not affected. -/
theorem C7_failure (st : VisitStore) (l u e : String) (now : ℚ)
    (hl : l ≠ "")
    (hnocd : ¬∃ r, latestVisit st l u = some r ∧ r.out_time = none ∧ now - r.in_time < 60) :
    record_lounge_visit false st l u e now = ("", st) := by
  rw [record_lounge_visit, if_neg hl]
  cases hlv : latestVisit st l u with
  | none => rfl
  | some r =>
    dsimp only
    by_cases ho : r.out_time = none
    · rw [if_pos ho]
      by_cases hcd : now - r.in_time < 60
      · exact absurd ⟨r, hlv, ho, hcd⟩ hnocd
      · rw [if_neg hcd]
        rfl
    · rw [if_neg ho]
      rfl

/-- C7, witness: a failing write on a store whose latest pair row is
closed (a check-in attempt) yields the empty status and the unchanged
store. -/
theorem C7_witness :
    record_lounge_visit false closedStore "L" "U" "e" 100 = ("", closedStore) :=
  C7_failure closedStore "L" "U" "e" 100 (by decide) (by decide)

/-! ## Lemmas about the matcher -/

theorem rankedMatches_perm (probe : List ℝ) (g : List (String × List ℝ)) :
    List.Perm (rankedMatches probe g) (similarities probe g) :=
  List.perm_insertionSort _ _

theorem rankedMatches_sorted (probe : List ℝ) (g : List (String × List ℝ)) :
    List.Sorted scoreGE (rankedMatches probe g) :=
  List.sorted_insertionSort _ _

theorem rankedMatches_length (probe : List ℝ) (g : List (String × List ℝ)) :
    (rankedMatches probe g).length = g.length := by
  rw [rankedMatches, List.length_insertionSort, similarities, List.length_map]

theorem rankedMatches_cons (probe : List ℝ) {g : List (String × List ℝ)} (hg : g ≠ []) :
    ∃ p rest, rankedMatches probe g = p :: rest := by
  cases hr : rankedMatches probe g with
  | cons p rest => exact ⟨p, rest, rfl⟩
  | nil =>
    exfalso
    have hlen := rankedMatches_length probe g
    rw [hr] at hlen
    exact hg (List.length_eq_zero.mp hlen.symm)

/-- The decision branch of `verify_face` on a non-empty gallery, written
out: accept exactly when the best score clears the dynamic threshold and
the best user id is truthy (non-empty). -/
theorem verify_face_eq_ite (probe : List ℝ) (g : List (String × List ℝ)) (hg : g ≠ []) :
    verify_face (some probe) g =
      (if dynamicThreshold probe g ≤ (bestPair probe g).2 ∧ (bestPair probe g).1 ≠ "" then
        .decision ⟨true, some (bestPair probe g).1, (bestPair probe g).2,
                   dynamicThreshold probe g, matchMargin probe g⟩
      else
        .decision ⟨false, none, (bestPair probe g).2,
                   dynamicThreshold probe g, matchMargin probe g⟩) := by
  have hempty : g.isEmpty = false := by
    cases g with
    | nil => exact absurd rfl hg
    | cons a l => rfl
  rw [verify_face, hempty]
  rfl

/-- `matches[0]` is a similarity pair of the gallery scan. -/
theorem bestPair_mem (probe : List ℝ) {g : List (String × List ℝ)} (hg : g ≠ []) :
    bestPair probe g ∈ similarities probe g := by
  obtain ⟨p, rest, hrm⟩ := rankedMatches_cons probe hg
  have hp : p ∈ rankedMatches probe g := by rw [hrm]; exact List.mem_cons_self p rest
  rw [bestPair, hrm]
  exact (rankedMatches_perm probe g).mem_iff.mp hp

/-- `matches[0]` carries the maximal similarity of the scan. -/
theorem bestPair_max (probe : List ℝ) {g : List (String × List ℝ)} (hg : g ≠ []) :
    ∀ q ∈ similarities probe g, q.2 ≤ (bestPair probe g).2 := by
  obtain ⟨p, rest, hrm⟩ := rankedMatches_cons probe hg
  intro q hq
  have hq' : q ∈ rankedMatches probe g := (rankedMatches_perm probe g).symm.mem_iff.mp hq
  rw [hrm] at hq'
  rw [bestPair, hrm]
  rcases List.mem_cons.mp hq' with h | h
  · rw [h]
    exact le_rfl
  · have hs := rankedMatches_sorted probe g
    rw [hrm] at hs
    exact List.rel_of_sorted_cons hs q h

/-- On a one-entry gallery the runner-up score defaults to `0.0`. -/
theorem secondBestScore_single (probe : List ℝ) {g : List (String × List ℝ)}
    (h1 : g.length = 1) : secondBestScore probe g = 0 := by
  have hg : g ≠ [] := by intro h; rw [h] at h1; simp at h1
  obtain ⟨p, rest, hrm⟩ := rankedMatches_cons probe hg
  have hlen := rankedMatches_length probe g
  rw [hrm, h1, List.length_cons] at hlen
  have hrest : rest = [] := List.length_eq_zero.mp (by omega)
  rw [secondBestScore, hrm, hrest]
  rfl

/-- On a gallery with at least two entries the runner-up score is the
maximum of the similarity multiset with one copy of the best score
removed. -/
theorem secondBestScore_spec (probe : List ℝ) {g : List (String × List ℝ)}
    (h2 : 1 < g.length) :
    secondBestScore probe g ∈
      ((similarities probe g).map Prod.snd).erase (bestPair probe g).2 ∧
    ∀ y ∈ ((similarities probe g).map Prod.snd).erase (bestPair probe g).2,
      y ≤ secondBestScore probe g := by
  have hg : g ≠ [] := by intro h; rw [h] at h2; simp at h2
  obtain ⟨p, rest, hrm⟩ := rankedMatches_cons probe hg
  have hlen := rankedMatches_length probe g
  rw [hrm] at hlen
  cases rest with
  | nil => rw [← hlen] at h2; simp at h2
  | cons q rest' =>
    have hbest : (bestPair probe g).2 = p.2 := by rw [bestPair, hrm]; rfl
    have hsecond : secondBestScore probe g = q.2 := by rw [secondBestScore, hrm]; rfl
    have hpermS : List.Perm (((similarities probe g).map Prod.snd).erase p.2)
        (q.2 :: rest'.map Prod.snd) := by
      have hp1 : List.Perm ((similarities probe g).map Prod.snd)
          ((rankedMatches probe g).map Prod.snd) :=
        ((rankedMatches_perm probe g).map Prod.snd).symm
      have hp2 := hp1.erase p.2
      rw [hrm] at hp2
      simpa [List.erase_cons_head] using hp2
    have hs := rankedMatches_sorted probe g
    rw [hrm] at hs
    have hq : ∀ z ∈ rest', z.2 ≤ q.2 :=
      fun z hz => List.rel_of_sorted_cons hs.of_cons z hz
    constructor
    · rw [hsecond, hbest]
      exact hpermS.symm.mem_iff.mp (List.mem_cons_self _ _)
    · intro y hy
      rw [hbest] at hy
      have hy' := hpermS.mem_iff.mp hy
      rw [hsecond]
      rcases List.mem_cons.mp hy' with h | h
      · rw [h]
      · obtain ⟨z, hz, hzy⟩ := List.mem_map.mp h
        rw [← hzy]
        exact hq z hz

/-- `np.dot` of an all-zero probe with anything is `0`. -/
theorem dot_replicate_zero (n : ℕ) (w : List ℝ) : dot (List.replicate n 0) w = 0 := by
  induction w generalizing n with
  | nil => simp [dot]
  | cons a w ih =>
    cases n with
    | zero => simp [dot]
    | succ m =>
      rw [List.replicate_succ, dot, List.zipWith_cons_cons, List.sum_cons]
      rw [show ((0 : ℝ) * a) = 0 by ring, zero_add]
      exact ih m

theorem similarities_zero (n : ℕ) (g : List (String × List ℝ)) :
    similarities (List.replicate n 0) g = g.map (fun p => (p.1, 0)) := by
  simp [similarities, dot_replicate_zero]

theorem bestPair_zero (n : ℕ) {g : List (String × List ℝ)} (hg : g ≠ []) :
    (bestPair (List.replicate n 0) g).2 = 0 := by
  have hmem := bestPair_mem (List.replicate n 0) hg
  rw [similarities_zero] at hmem
  obtain ⟨p, hp, hpe⟩ := List.mem_map.mp hmem
  rw [← hpe]

theorem secondBestScore_zero (n : ℕ) {g : List (String × List ℝ)} (hg : g ≠ []) :
    secondBestScore (List.replicate n 0) g = 0 := by
  rcases Nat.lt_or_ge 1 g.length with h | h
  · obtain ⟨hmem, _⟩ := secondBestScore_spec (List.replicate n 0) h
    have hall : ∀ y ∈ (((similarities (List.replicate n 0) g).map Prod.snd).erase
        (bestPair (List.replicate n 0) g).2), y = 0 := by
      intro y hy
      have hy' := List.mem_of_mem_erase hy
      rw [similarities_zero, List.map_map] at hy'
      obtain ⟨p, _, hpe⟩ := List.mem_map.mp hy'
      exact hpe.symm
    exact hall _ hmem
  · have hpos : 0 < g.length := List.length_pos.mpr hg
    exact secondBestScore_single _ (le_antisymm h hpos)

/-- The no-match outcome of `verify_face` on an all-zero probe: every
similarity is `0`, the margin is `0`, the threshold is the base `0.68`,
and the comparison completes with `matched = false`. -/
theorem verify_zero_probe (n : ℕ) {g : List (String × List ℝ)} (hg : g ≠ []) :
    verify_face (some (List.replicate n 0)) g =
      VerifyOutcome.decision ⟨false, none, 0, 68 / 100, 0⟩ := by
  have hb := bestPair_zero n hg
  have hs := secondBestScore_zero n hg
  have hm : matchMargin (List.replicate n 0) g = 0 := by rw [matchMargin, hb, hs]; ring
  have ht : dynamicThreshold (List.replicate n 0) g = 68 / 100 := by
    rw [dynamicThreshold, hm]
    norm_num
  rw [verify_face_eq_ite _ _ hg, hb, ht, hm,
    if_neg (fun hcon => absurd hcon.1 (by norm_num : ¬((68 : ℝ) / 100 ≤ 0)))]

/-! ## Claim C1 — the adaptive-threshold matcher -/

/-- C1, counterexample.  "matched = true if and only if best ≥
threshold" fails because of the Python truthiness test `and best_user`
(api.py line 263): on the gallery `{"": [1]}` whose subject id is the
empty string, the probe `[1]` scores `1 ≥ threshold = 0.45`, yet the
response is `matched = false`. -/
theorem C1_counterexample :
    verify_face (some [1]) [("", [1])] =
      VerifyOutcome.decision ⟨false, none, 1, 45 / 100, 1⟩ ∧ ((45 : ℝ) / 100) ≤ 1 := by
  have hns : normSq [(1 : ℝ)] = 1 := by simp [normSq]
  have hl2 : l2norm [(1 : ℝ)] = 1 := by rw [l2norm, hns, Real.sqrt_one]
  have hnv : normalizeVec [(1 : ℝ)] = [1] := by
    rw [normalizeVec, if_pos (by rw [hl2]; norm_num)]
    rw [hl2]
    norm_num
  have hsims : similarities [(1 : ℝ)] [("", [1])] = [("", 1)] := by
    simp [similarities, hnv, dot]
  have hranked : rankedMatches [(1 : ℝ)] [("", [1])] = [("", 1)] := by
    rw [rankedMatches, hsims]
    rfl
  have hbest : bestPair [(1 : ℝ)] [("", [1])] = ("", 1) := by
    rw [bestPair, hranked]
    rfl
  have hsecond : secondBestScore [(1 : ℝ)] [("", [1])] = 0 := by
    rw [secondBestScore, hranked]
    rfl
  have hmargin : matchMargin [(1 : ℝ)] [("", [1])] = 1 := by
    rw [matchMargin, hbest, hsecond]
    norm_num
  have hthr : dynamicThreshold [(1 : ℝ)] [("", [1])] = 45 / 100 := by
    rw [dynamicThreshold, hmargin]
    norm_num
  refine ⟨?_, by norm_num⟩
  rw [verify_face_eq_ite _ _ (by simp), hbest, hthr, hmargin,
    if_neg (fun hcon => hcon.2 rfl)]

/-- C1 (amended).  For every probe embedding and non-empty gallery,
`verify_face` scores each subject by the dot product of the probe with
the defensively re-normalised stored vector, the reported best score is
the maximum of those similarities (attained by the reported subject),
the runner-up score is the maximum of the remaining similarities (`0`
when the gallery has exactly one entry), `margin = best − second`,
`threshold = max(0.45, 0.68 − 0.7 × margin)`, and `matched = true` if
and only if `best ≥ threshold` **and the best subject id is non-empty**
(Python truthiness of `best_user`); the matched subject is the
best-scoring one. -/
theorem C1_matcher (probe : List ℝ) (g : List (String × List ℝ)) (hg : g ≠ []) :
    verify_face (some probe) g =
      (if dynamicThreshold probe g ≤ (bestPair probe g).2 ∧ (bestPair probe g).1 ≠ "" then
        VerifyOutcome.decision ⟨true, some (bestPair probe g).1, (bestPair probe g).2,
          dynamicThreshold probe g, matchMargin probe g⟩
      else
        VerifyOutcome.decision ⟨false, none, (bestPair probe g).2,
          dynamicThreshold probe g, matchMargin probe g⟩) ∧
    matchMargin probe g = (bestPair probe g).2 - secondBestScore probe g ∧
    dynamicThreshold probe g =
      max (45 / 100) (68 / 100 - matchMargin probe g * (7 / 10)) ∧
    bestPair probe g ∈ similarities probe g ∧
    (∀ q ∈ similarities probe g, q.2 ≤ (bestPair probe g).2) ∧
    (g.length = 1 → secondBestScore probe g = 0) ∧
    (1 < g.length →
      secondBestScore probe g ∈
        ((similarities probe g).map Prod.snd).erase (bestPair probe g).2 ∧
      ∀ y ∈ ((similarities probe g).map Prod.snd).erase (bestPair probe g).2,
        y ≤ secondBestScore probe g) :=
  ⟨verify_face_eq_ite probe g hg, rfl, rfl, bestPair_mem probe hg, bestPair_max probe hg,
   fun h1 => secondBestScore_single probe h1, fun h2 => secondBestScore_spec probe h2⟩

/-- C1, witness: on the one-entry gallery `{"A": [1]}` the best pair is
one of the computed similarities and the runner-up score defaults to 0. -/
theorem C1_witness :
    bestPair [(1 : ℝ)] [("A", [1])] ∈ similarities [(1 : ℝ)] [("A", [1])] ∧
    secondBestScore [(1 : ℝ)] [("A", [1])] = 0 :=
  ⟨(C1_matcher [1] [("A", [1])] (by simp)).2.2.2.1,
   (C1_matcher [1] [("A", [1])] (by simp)).2.2.2.2.2.1 (by simp)⟩

/-! ## Claim C6 — degenerate probe handling -/

/-- C6, counterexample.  The claim says a zero probe vector is rejected
with `InvalidProbe` before any comparison.  The code has no
`InvalidProbe` path at all: a zero probe sails through the comparison
loop (every cosine score is 0) and `verify_face` returns an ordinary
no-match *decision* — computed from the gallery scan, not a rejection
that precedes it. -/
theorem C6_counterexample :
    verify_face (some [0]) [("A", [1])] =
      VerifyOutcome.decision ⟨false, none, 0, 68 / 100, 0⟩ :=
  verify_zero_probe 1 (show ([("A", [(1 : ℝ)])] : List (String × List ℝ)) ≠ [] by simp)

/-- C6 (amended).  A probe whose embedding generation failed (malformed
image, or an embedding of the wrong dimension — `generate_embedding`
returns `None`) produces the "No face detected" response before any
gallery comparison; but there is no `InvalidProbe` rejection: an
all-zero probe vector of any length is *not* rejected — it is compared
against every gallery entry and yields a no-match decision with score
`0`, margin `0` and threshold `0.68`. -/
theorem C6_probe_handling :
    (∀ g : List (String × List ℝ), verify_face none g = VerifyOutcome.noFace) ∧
    ∀ (n : ℕ) (g : List (String × List ℝ)), g ≠ [] →
      verify_face (some (List.replicate n 0)) g =
        VerifyOutcome.decision ⟨false, none, 0, 68 / 100, 0⟩ :=
  ⟨fun _ => rfl, fun n _ hg => verify_zero_probe n hg⟩

/-- C6, witness: the 512-dimensional zero probe against a one-entry
gallery completes the comparison and yields the no-match decision. -/
theorem C6_witness :
    verify_face (some (List.replicate 512 0)) [("A", [1])] =
      VerifyOutcome.decision ⟨false, none, 0, 68 / 100, 0⟩ :=
  C6_probe_handling.2 512 [("A", [1])] (by simp)

/-! ## Lemmas about normalisation and the multi-shot aggregator -/

theorem normSq_cons (a : ℝ) (w : List ℝ) : normSq (a :: w) = a * a + normSq w := by
  rw [normSq, List.map_cons, List.sum_cons]
  rfl

theorem normSq_nonneg (v : List ℝ) : 0 ≤ normSq v := by
  induction v with
  | nil => simp [normSq]
  | cons a w ih =>
    rw [normSq_cons]
    exact add_nonneg (mul_self_nonneg a) ih

theorem normSq_replicate_zero (n : ℕ) : normSq (List.replicate n (0 : ℝ)) = 0 := by
  simp [normSq, List.map_replicate, List.sum_replicate]

theorem normSq_map_div (v : List ℝ) (c : ℝ) :
    normSq (v.map (fun x => x / c)) = normSq v / (c * c) := by
  induction v with
  | nil => simp [normSq]
  | cons a w ih =>
    rw [List.map_cons, normSq_cons, normSq_cons, ih, add_div]
    congr 1
    rw [div_mul_div_comm]

/-- Re-normalising a vector of positive norm yields a unit vector. -/
theorem l2norm_normalize {v : List ℝ} (h : 0 < l2norm v) : l2norm (normalizeVec v) = 1 := by
  have hsq : 0 < normSq v := Real.sqrt_pos.mp h
  rw [normalizeVec, if_pos h, l2norm, normSq_map_div,
    show l2norm v * l2norm v = normSq v from Real.mul_self_sqrt (normSq_nonneg v),
    div_self (ne_of_gt hsq), Real.sqrt_one]

theorem eUnit_length : eUnit.length = 512 := by
  rw [eUnit, List.length_cons, List.length_replicate]

theorem eUnitNeg_length : eUnitNeg.length = 512 := by
  rw [eUnitNeg, List.length_cons, List.length_replicate]

theorem l2norm_eUnit : l2norm eUnit = 1 := by
  rw [eUnit, l2norm, normSq_cons, normSq_replicate_zero]
  norm_num

theorem l2norm_eUnitNeg : l2norm eUnitNeg = 1 := by
  rw [eUnitNeg, l2norm, normSq_cons, normSq_replicate_zero]
  norm_num

theorem l2norm_zero512 : l2norm zero512 = 0 := by
  rw [zero512, l2norm, normSq_replicate_zero, Real.sqrt_zero]

theorem normalize_eUnit : normalizeVec eUnit = eUnit := by
  rw [normalizeVec, if_pos (by rw [l2norm_eUnit]; norm_num), l2norm_eUnit]
  simp

theorem normalize_eUnitNeg : normalizeVec eUnitNeg = eUnitNeg := by
  rw [normalizeVec, if_pos (by rw [l2norm_eUnitNeg]; norm_num), l2norm_eUnitNeg]
  simp

theorem normalize_zero512 : normalizeVec zero512 = zero512 := by
  rw [normalizeVec, if_neg]
  rw [l2norm_zero512]
  exact lt_irrefl 0

theorem gen_eUnit : generate_embedding (some eUnit) = some eUnit := by
  rw [generate_embedding]
  rw [if_neg (by rw [eUnit_length]; omega), normalize_eUnit]

theorem gen_eUnitNeg : generate_embedding (some eUnitNeg) = some eUnitNeg := by
  rw [generate_embedding]
  rw [if_neg (by rw [eUnitNeg_length]; omega), normalize_eUnitNeg]

theorem zipWith_add_replicate_zero (n : ℕ) :
    List.zipWith (· + ·) (List.replicate n (0 : ℝ)) (List.replicate n 0) =
      List.replicate n 0 := by
  induction n with
  | zero => rfl
  | succ m ih => simp [List.replicate_succ, ih]

/-! ## Claim C5 — the multi-shot aggregator -/

/-- C5, counterexample.  "The result has norm 1" fails: the embedder can
succeed with the unit vectors `(1,0,…,0)` and `(−1,0,…,0)`; their mean
is the zero vector, the guard `if norm > 0` skips the re-normalisation,
and the aggregator returns the zero vector — norm 0, not 1. -/
theorem C5_counterexample :
    l2norm eUnit = 1 ∧ l2norm eUnitNeg = 1 ∧
    generate_multi_embedding [some eUnit, some eUnitNeg] = some zero512 ∧
    l2norm zero512 = 0 := by
  refine ⟨l2norm_eUnit, l2norm_eUnitNeg, ?_, l2norm_zero512⟩
  have hfm : ([some eUnit, some eUnitNeg] : List (Option (List ℝ))).filterMap
      generate_embedding = [eUnit, eUnitNeg] := by
    simp [List.filterMap_cons, gen_eUnit, gen_eUnitNeg]
  have hsum : sumVecs [eUnit, eUnitNeg] = zero512 := by
    rw [sumVecs]
    simp only [List.foldl_cons, List.foldl_nil]
    rw [eUnit, eUnitNeg, List.zipWith_cons_cons, zipWith_add_replicate_zero]
    rw [show (1 : ℝ) + -1 = 0 by norm_num, zero512]
    exact (List.replicate_succ _ _).symm
  have hmean : meanVec [eUnit, eUnitNeg] = zero512 := by
    rw [meanVec, hsum, zero512, List.map_replicate]
    norm_num
  simp only [generate_multi_embedding, hfm]
  rw [if_neg (by simp)]
  rw [hmean, normalize_zero512]

/-- C5 (amended).  The multi-shot aggregator drops each image whose
embedding fails without surfacing the failure, returns the failure
value (`None`) if and only if zero images yield an embedding, and
otherwise returns the guarded re-normalisation of the arithmetic mean
of the successful embeddings: when the mean has positive norm the
result is a unit vector; a zero mean (possible even for unit inputs) is
returned unnormalised with norm 0. -/
theorem C5_aggregator :
    (∀ raws : List (Option (List ℝ)),
       generate_multi_embedding raws = none ↔ raws.filterMap generate_embedding = []) ∧
    (∀ (r : Option (List ℝ)) (raws : List (Option (List ℝ))),
       generate_embedding r = none →
       generate_multi_embedding (r :: raws) = generate_multi_embedding raws) ∧
    (∀ raws : List (Option (List ℝ)), raws.filterMap generate_embedding ≠ [] →
       generate_multi_embedding raws =
         some (normalizeVec (meanVec (raws.filterMap generate_embedding)))) ∧
    (∀ v : List ℝ, 0 < l2norm v → l2norm (normalizeVec v) = 1) := by
  refine ⟨?_, ?_, ?_, fun v h => l2norm_normalize h⟩
  · intro raws
    simp only [generate_multi_embedding]
    by_cases h : (raws.filterMap generate_embedding).isEmpty
    · rw [if_pos h]
      simp only [List.isEmpty_iff] at h
      simp [h]
    · rw [if_neg h]
      simp only [List.isEmpty_iff] at h
      simp [h]
  · intro r raws h
    simp only [generate_multi_embedding, List.filterMap_cons, h]
  · intro raws h
    simp only [generate_multi_embedding]
    rw [if_neg (by simpa [List.isEmpty_iff] using h)]

/-- C5, witness: a failing shot ahead of a good one is dropped, and
re-normalising the unit vector `eUnit` (positive norm) yields norm 1. -/
theorem C5_witness :
    generate_multi_embedding [none, some eUnit] = generate_multi_embedding [some eUnit] ∧
    l2norm (normalizeVec eUnit) = 1 :=
  ⟨C5_aggregator.2.1 none [some eUnit] rfl,
   C5_aggregator.2.2.2 eUnit (by rw [l2norm_eUnit]; norm_num)⟩

/-! ## Lemmas about `register_face` -/

theorem gen_none : generate_embedding none = none := rfl

/-- Any request whose embedding pipeline produced a valid 512-dimension
embedding reaches the `store_embedding` call, whose `lounge_id` keyword
argument is not in the callee's parameter list: the call raises
`TypeError` and the endpoint never builds its success response. -/
theorem register_typeError_of_valid (storeOk : Bool) (req : RegRequest) {e : List ℝ}
    {shots : Nat} (hemb : regEmbedding req = (some e, shots)) (hlen : e.length = 512) :
    register_face storeOk req = RegOutcome.typeError := by
  have h400 : ¬(req.image.isNone ∧ multiShotRequested req = false) := by
    rintro ⟨h1, h2⟩
    rw [regEmbedding, if_neg (by rw [h2]; simp)] at hemb
    cases hi : req.image with
    | none =>
      rw [hi] at hemb
      simp at hemb
    | some raw =>
      rw [hi] at h1
      simp at h1
  rw [register_face, if_neg h400, hemb]
  dsimp only
  rw [if_neg (fun hne => hne hlen), if_pos (by decide)]

theorem length_normalizeVec (v : List ℝ) : (normalizeVec v).length = v.length := by
  rw [normalizeVec]
  split_ifs
  · rw [List.length_map]
  · rfl

theorem length_meanVec (l : List (List ℝ)) : (meanVec l).length = (sumVecs l).length := by
  rw [meanVec, List.length_map]

theorem sumVecs_three_length : (sumVecs [eUnit, eUnit, eUnit]).length = 512 := by
  rw [sumVecs]
  simp only [List.foldl_cons, List.foldl_nil]
  rw [List.length_zipWith, List.length_zipWith, eUnit_length]
  simp

theorem multi_eUnit_single : generate_multi_embedding [some eUnit] = some eUnit := by
  have h : ([some eUnit] : List (Option (List ℝ))).filterMap generate_embedding = [eUnit] := by
    rw [List.filterMap_cons, gen_eUnit]
    rfl
  have hmean : meanVec [eUnit] = eUnit := by
    rw [meanVec, sumVecs]
    simp [div_one]
  rw [generate_multi_embedding, h]
  rw [show (([eUnit] : List (List ℝ)).isEmpty) = false from rfl]
  rw [if_neg (by simp), hmean, normalize_eUnit]

theorem regEmbedding_req9 : regEmbedding req9 = (some eUnit, 1) := by
  have h : multiShotRequested req9 = true := rfl
  rw [regEmbedding, if_pos h]
  show (generate_multi_embedding [some eUnit], 1) = (some eUnit, 1)
  rw [multi_eUnit_single]

theorem multi_req8 :
    generate_multi_embedding [some eUnit, some eUnit, some eUnit, none, none] =
      some (normalizeVec (meanVec [eUnit, eUnit, eUnit])) := by
  have h : ([some eUnit, some eUnit, some eUnit, none, none] :
      List (Option (List ℝ))).filterMap generate_embedding = [eUnit, eUnit, eUnit] := by
    rw [List.filterMap_cons, gen_eUnit, List.filterMap_cons, gen_eUnit,
      List.filterMap_cons, gen_eUnit, List.filterMap_cons, gen_none,
      List.filterMap_cons, gen_none]
    rfl
  rw [generate_multi_embedding, h]
  rw [if_neg (by simp)]

theorem regEmbedding_req8 :
    regEmbedding req8 = (some (normalizeVec (meanVec [eUnit, eUnit, eUnit])), 5) := by
  have h : multiShotRequested req8 = true := rfl
  rw [regEmbedding, if_pos h]
  show (generate_multi_embedding [some eUnit, some eUnit, some eUnit, none, none], 5) = _
  rw [multi_req8]

/-! ## Claim C9 — the success response of `/register` is unreachable -/

/-- C9.  For every registration request that yields a valid
512-dimension embedding, `register_face` evaluates
`store_embedding(req.user_id, embedding, lounge_id=req.lounge_id)`;
`store_embedding(user_id, embedding)` accepts no `lounge_id` keyword,
so the call raises `TypeError` and the request terminates in that error
instead of the success response (`success = True`, "Face registered
successfully"), which is therefore unreachable. -/
theorem C9_register_typeError (storeOk : Bool) (req : RegRequest) {e : List ℝ}
    {shots : Nat} (hemb : regEmbedding req = (some e, shots)) (hlen : e.length = 512) :
    register_face storeOk req = RegOutcome.typeError :=
  register_typeError_of_valid storeOk req hemb hlen

/-- C9, witness: a one-shot multi registration with a valid unit
embedding ends in the `TypeError`, never the success response. -/
theorem C9_witness : register_face true req9 = RegOutcome.typeError :=
  C9_register_typeError true req9 regEmbedding_req9 eUnit_length

/-! ## Claim C8 — the counts reported by multi-shot registration -/

/-- C8, failing input.  Five images submitted, the embedder succeeds on
three: the aggregate embedding is valid and 512-dimensional, yet the
endpoint raises `TypeError` at the `store_embedding` call, so no result
carrying `shots_used = 5` (let alone the contributing count 3, which the
`RegisterResponse` model has no field for) is ever produced. -/
theorem C8_register_no_result : register_face true req8 = RegOutcome.typeError :=
  register_typeError_of_valid true req8 regEmbedding_req8 (by
    rw [length_normalizeVec, length_meanVec]
    exact sumVecs_three_length)

/-! ## Claim C10 — fetch_all_embeddings shape guarantees -/

theorem mem_dictInsert {users : List (String × List ℚ)} {k : String} {v : List ℚ}
    {p : String × List ℚ} (h : p ∈ dictInsert users k v) : p ∈ users ∨ p = (k, v) := by
  rw [dictInsert] at h
  by_cases hc : users.any (fun q => q.1 == k)
  · rw [if_pos hc] at h
    obtain ⟨q, hq, hqp⟩ := List.mem_map.mp h
    by_cases hqk : q.1 == k
    · rw [if_pos hqk] at hqp
      right
      exact hqp.symm
    · rw [if_neg hqk] at hqp
      left
      rw [← hqp]
      exact hq
  · rw [if_neg hc] at h
    rcases List.mem_append.mp h with h | h
    · left; exact h
    · right; simpa using h

theorem mem_fetchRowStep {users : List (String × List ℚ)}
    {row : String × List (Option ℚ)} {p : String × List ℚ}
    (h : p ∈ fetchRowStep users row) : p ∈ users ∨ p.2.length = 512 := by
  rw [fetchRowStep] at h
  cases hpc : parseCell row.2 with
  | none =>
    rw [hpc] at h
    exact Or.inl h
  | some vec =>
    rw [hpc] at h
    dsimp only at h
    by_cases hlen : vec.length = 512
    · rw [if_pos hlen] at h
      rcases mem_dictInsert h with h | h
      · exact Or.inl h
      · right
        rw [h]
        exact hlen
    · rw [if_neg hlen] at h
      exact Or.inl h

theorem fetch_foldl_length (rows : List (String × List (Option ℚ)))
    (acc : List (String × List ℚ)) (hacc : ∀ p ∈ acc, p.2.length = 512) :
    ∀ p ∈ rows.foldl fetchRowStep acc, p.2.length = 512 := by
  induction rows generalizing acc with
  | nil => simpa using hacc
  | cons row rows ih =>
    rw [List.foldl_cons]
    refine ih _ ?_
    intro q hq
    rcases mem_fetchRowStep hq with h | h
    · exact hacc q h
    · exact h

/-- C10.  `fetch_all_embeddings` is a total function returning a
mapping (it never raises): every vector in the result has exactly 512
components — rows that fail to parse or have another dimension are
skipped — and a missing connection or a failing query yields the empty
mapping rather than an error. -/
theorem C10_fetch :
    (∀ conn p, p ∈ fetch_all_embeddings conn → p.2.length = 512) ∧
    fetch_all_embeddings none = [] ∧
    (∀ er : Unit, fetch_all_embeddings (some (Except.error er)) = []) := by
  refine ⟨?_, rfl, fun er => rfl⟩
  intro conn p hp
  match conn with
  | none => simp [fetch_all_embeddings] at hp
  | some (.error _) => simp [fetch_all_embeddings] at hp
  | some (.ok rows) => exact fetch_foldl_length rows [] (by simp) p hp

set_option maxRecDepth 8192 in
/-- C10, witness: over `fetchRows` (one good row, one unparsable row,
one wrong-dimension row) the good row is kept and its vector has 512
components. -/
theorem C10_witness :
    ("u", List.replicate 512 (1 : ℚ)) ∈ fetch_all_embeddings (some (Except.ok fetchRows)) ∧
    (("u", List.replicate 512 (1 : ℚ)) : String × List ℚ).2.length = 512 :=
  ⟨by decide, C10_fetch.1 (some (Except.ok fetchRows)) _ (by decide)⟩

end AeroFace
